import Mathlib

/-!
Shallow embedding of four deno_lint rules and proofs about them:
`getter-return` (src/rules/getter_return.rs), `no-cond-assign`
(src/rules/no_cond_assign.rs), `no-fallthrough` (src/rules/no_fallthrough.rs)
and `no-async-promise-executor` (src/rules/no_async_promise_executor.rs).

Machine positions (`swc_common::Span`, byte positions) are modelled with `Nat`
endpoints.  The control-flow oracle and the comment maps live outside the four
rule files; they are modelled from the spec as position-keyed partial lookups
(`Nat → Option _`).
-/

namespace DenoLint

/-- `swc_common::Span`: a byte range `lo..hi` into the source text. -/
structure Span where
  lo : Nat
  hi : Nat
deriving DecidableEq, Repr

/-- `swc_common::DUMMY_SP` (both positions zero). -/
def dummySpan : Span := ⟨0, 0⟩

/-- Modelled from the spec: the entry the control-flow reachability oracle
returns for a source position (`context.control_flow.meta(pos)` — the
`ControlFlow` implementation is outside the four rule files).  Per spec §6 the
oracle answers "control can still fall through to here" (`continuesExecution`,
used by getter-return) and "this statement unconditionally stops execution"
(`stopsExecution`, used by no-fallthrough).  A position the oracle does not
cover yields `none` from the lookup. -/
structure Meta where
  continuesExecution : Bool
  stopsExecution : Bool
deriving DecidableEq, Repr

/-- The reachability oracle: a read-only position-keyed lookup. -/
def Oracle := Nat → Option Meta

/-- `swc_common::comments::Comment`, of which the rules only read the text. -/
structure Comment where
  text : String
deriving DecidableEq, Repr

/-- A position-keyed comment lookup (`context.leading_comments` /
`context.trailing_comments` are maps from byte position to a comment list;
modelled from the spec as the rules only `.get` from them). -/
def CommentMap := Nat → Option (List Comment)

/-- `char::to_ascii_lowercase`, character level: maps `A`..`Z` to `a`..`z`
and leaves every other character unchanged. -/
def asciiLowerChar (c : Char) : Char :=
  if 'A' ≤ c ∧ c ≤ 'Z' then Char.ofNat (c.toNat + 32) else c

/-- `str::to_ascii_lowercase`. -/
def asciiLower (s : String) : String :=
  String.mk (s.data.map asciiLowerChar)

/-- Does `hay` start with `needle` (character lists)? -/
def listStartsWith : List Char → List Char → Bool
  | _, [] => true
  | [], _ :: _ => false
  | h :: hs, n :: ns => h = n && listStartsWith hs ns

/-- Does `hay` contain `needle` as a contiguous sublist?  Models Rust's
`str::contains` on ASCII text. -/
def listHasSub (hay needle : List Char) : Bool :=
  listStartsWith hay needle ||
    match hay with
    | [] => false
    | _ :: t => listHasSub t needle

/-- `str::contains` on strings. -/
def strHasSub (hay needle : String) : Bool :=
  listHasSub hay.data needle.data

end DenoLint

namespace DenoLint.NoAsyncPromiseExecutor

/-- The expressions `no_async_promise_executor.rs` distinguishes: identifiers
(`Expr::Ident`), function expressions with their `is_async` flag
(`Expr::Fn`), arrow functions with their `is_async` flag (`Expr::Arrow`),
parenthesized expressions (`Expr::Paren`) and everything else. -/
inductive NExpr where
  | ident (sym : String)
  | fnE (isAsync : Bool)
  | arrow (isAsync : Bool)
  | paren (inner : NExpr)
  | otherE
deriving DecidableEq, Repr

/-- `is_async_function` (no_async_promise_executor.rs, lines 45–52):
unwraps parentheses recursively and reads the async flag of a function or
arrow expression; anything else is not an async function. -/
def isAsyncFunction : NExpr → Bool
  | .fnE isAsync => isAsync
  | .arrow isAsync => isAsync
  | .paren inner => isAsyncFunction inner
  | _ => false

/-- `swc_ecmascript::ast::NewExpr`: callee, optional argument list, span. -/
structure NewExpr where
  callee : NExpr
  args : Option (List NExpr)
  span : Span
deriving DecidableEq, Repr

/-- `NoAsyncPromiseExecutorVisitor::visit_new_expr` (lines 57–77), returning
the spans at which it calls `add_diagnostic` ("Async promise executors are
not allowed"). -/
def visitNewExpr (ne : NewExpr) : List Span :=
  match ne.callee with
  | .ident sym =>
    if sym ≠ "Promise" then []
    else
      match ne.args with
      | some args =>
        match args.head? with
        | some firstArg => if isAsyncFunction firstArg then [ne.span] else []
        | none => []
      | none => []
  | _ => []

/-- Strip every outer layer of parentheses from an expression. -/
def stripParens : NExpr → NExpr
  | .paren inner => stripParens inner
  | e => e

end DenoLint.NoAsyncPromiseExecutor

namespace DenoLint.NoCondAssign

/-- The binary operators `no_cond_assign.rs` distinguishes:
`BinaryOp::LogicalOr` against everything else (logical AND shown separately
because the spec's examples name it). -/
inductive BinOp where
  | logicalOr
  | logicalAnd
  | otherOp
deriving DecidableEq, Repr

/-- The expressions `no_cond_assign.rs` distinguishes: assignment expressions
(`Expr::Assign`), binary expressions (`Expr::Bin`), parenthesized
expressions (`Expr::Paren`), ternary/conditional expressions
(`Expr::Cond`, checked by `visit_cond_expr`) and everything else. -/
inductive CExpr where
  | assign (left right : CExpr) (span : Span)
  | bin (op : BinOp) (left right : CExpr) (span : Span)
  | paren (inner : CExpr) (span : Span)
  | condE (test cons alt : CExpr) (span : Span)
  | otherE (span : Span)
deriving DecidableEq, Repr

/-- Is the expression syntactically a parenthesized expression? -/
def CExpr.isParen : CExpr → Bool
  | .paren _ _ => true
  | _ => false

/-- `NoCondAssignVisitor::check_condition` (no_cond_assign.rs, lines 83–96),
returning the spans at which it calls `add_diagnostic` ("Expected a
conditional expression and instead saw an assignment"): a top-level
assignment reports at the assignment's span; a logical-OR binary expression
recurses into both operands; nothing else is inspected. -/
def checkCondition : CExpr → List Span
  | .assign _ _ sp => [sp]
  | .bin op l r _ =>
    if op = BinOp.logicalOr then checkCondition l ++ checkCondition r else []
  | _ => []

/-- `visit_if_stmt` (lines 102–108): check the `if` test. -/
def visitIfStmt (test : CExpr) : List Span := checkCondition test

/-- `visit_while_stmt` (lines 110–116): check the `while` test. -/
def visitWhileStmt (test : CExpr) : List Span := checkCondition test

/-- `visit_do_while_stmt` (lines 118–124): check the `do`-`while` test. -/
def visitDoWhileStmt (test : CExpr) : List Span := checkCondition test

/-- `visit_for_stmt` (lines 126–134): check the `for` test when present. -/
def visitForStmt (test : Option CExpr) : List Span :=
  match test with
  | some t => checkCondition t
  | none => []

/-- `visit_cond_expr` (lines 136–144): for a ternary expression, run the
condition check on the inside of the test only when the test is
syntactically parenthesized. -/
def visitCondExpr (test _cons _alt : CExpr) (_span : Span) : List Span :=
  match test with
  | .paren inner _ => checkCondition inner
  | _ => []

/-- An assignment with span `sp` is the condition's top-level node or is
reachable from the top level through operands of logical-OR binary
expressions only. -/
inductive OrReach : CExpr → Span → Prop
  | assignTop (l r : CExpr) (sp : Span) : OrReach (.assign l r sp) sp
  | orLeft {l sp} (r : CExpr) (sp' : Span) :
      OrReach l sp → OrReach (.bin .logicalOr l r sp') sp
  | orRight {r sp} (l : CExpr) (sp' : Span) :
      OrReach r sp → OrReach (.bin .logicalOr l r sp') sp

end DenoLint.NoCondAssign

namespace DenoLint.NoFallthrough

/-- The statements `no_fallthrough.rs` distinguishes inside a case body:
block statements (`Stmt::Block`, whose emptiness matters for the empty-case
rule) and everything else.  Each statement carries its span, whose `lo` is
queried against the oracle and whose `hi` against the trailing-comment map.
(`case.visit_with` recursively lints nested statements; that recursion only
adds diagnostics of independent nested switches and never touches the local
`should_emit_err`/`prev_span` state, so nested switches are subsumed under
`other` here.) -/
inductive FStmt where
  | block (stmts : List FStmt) (span : Span)
  | other (span : Span)

/-- The span of a statement (`stmt.span()`). -/
def FStmt.span : FStmt → Span
  | .block _ sp => sp
  | .other sp => sp

/-- `swc_ecmascript::ast::SwitchCase`: the test (`none` marks the default
case; the rule only ever asks `test.is_none()`), the body statements
(`cons`) and the case's span. -/
structure SwitchCase where
  test : Option Unit
  cons : List FStmt
  span : Span

/-- The part of the shared `Context` this rule reads: leading and trailing
comment lookups and the control-flow oracle. -/
structure FCtx where
  leading : Nat → Option (List Comment)
  trailing : Nat → Option (List Comment)
  meta : Nat → Option Meta

/-- `allow_fall_through` (no_fallthrough.rs, lines 115–126): some comment in
the list, ASCII-lowercased, contains `"fallthrough"`, `"falls through"` or
`"fall through"` as a substring. -/
def allowFallThrough : List Comment → Bool
  | [] => false
  | c :: rest =>
    let l := asciiLower c.text
    if strHasSub l "fallthrough" || strHasSub l "falls through"
        || strHasSub l "fall through" then
      true
    else allowFallThrough rest

/-- Result of scanning one case's statement list (the `for (idx, stmt)` loop
of `visit_switch_cases`, lines 68–88): either the loop ran to completion
leaving a `should_emit_err` value, or a trailing suppression comment on the
last statement forced `should_emit_err = false` and jumped out
(`continue 'cases`), skipping the empty-body special case. -/
inductive ScanResult where
  | normal (shouldEmit : Bool)
  | commentSuppressed
deriving DecidableEq, Repr

/-- The statement scan of `visit_switch_cases` (lines 65–88): accumulate
`stops_exec` from the oracle (a miss counts as `false`), clear
`should_emit_err` once execution stops, and on the last statement consult
its trailing comments — a suppression comment wins over everything. -/
def scanCons (ctx : FCtx) : List FStmt → Bool → Bool → ScanResult
  | [], _, shouldEmit => .normal shouldEmit
  | stmt :: rest, stopsExec, shouldEmit =>
    let stopsExec :=
      stopsExec || (((ctx.meta stmt.span.lo).map Meta.stopsExecution).getD false)
    let shouldEmit := if stopsExec then false else shouldEmit
    match rest with
    | [] =>
      match ctx.trailing stmt.span.hi with
      | some comments =>
        if allowFallThrough comments then .commentSuppressed
        else .normal shouldEmit
      | none => .normal shouldEmit
    | _ :: _ => scanCons ctx rest stopsExec shouldEmit

/-- The emptiness test of `visit_switch_cases` (lines 90–94): the body has no
statements, or its first statement is an empty block. -/
def caseEmpty (cons : List FStmt) : Bool :=
  cons.isEmpty ||
    match cons.head? with
    | some (FStmt.block stmts _) => stmts.isEmpty
    | _ => false

/-- The per-case loop of `NoFallthroughVisitor::visit_switch_cases`
(no_fallthrough.rs, lines 45–111), carrying `should_emit_err` and
`prev_span` across the case sequence and returning the spans at which it
calls `add_diagnostic` ("Fallthrough is not allowed").  The next case in
sequence (`cases[case_idx + 1]`) is the head of `rest`. -/
def visitCasesLoop (ctx : FCtx) : List SwitchCase → Bool → Span → List Span
  | [], _, _ => []
  | c :: rest, shouldEmitErr, prevSpan =>
    let diags :=
      if shouldEmitErr then
        match ctx.leading c.span.lo with
        | some comments =>
          if allowFallThrough comments then [] else [prevSpan]
        | none => [prevSpan]
      else []
    match scanCons ctx c.cons false true with
    | .commentSuppressed => diags ++ visitCasesLoop ctx rest false c.span
    | .normal se =>
      let se :=
        match rest with
        | [] => se
        | next :: _ =>
          if next.test.isNone then
            if caseEmpty c.cons then true else se
          else
            if caseEmpty c.cons then false else se
      diags ++ visitCasesLoop ctx rest se c.span

/-- `NoFallthroughVisitor::visit_switch_cases` (lines 41–112): run the loop
with `should_emit_err = false` and `prev_span = DUMMY_SP`. -/
def visitSwitchCases (ctx : FCtx) (cases : List SwitchCase) : List Span :=
  visitCasesLoop ctx cases false dummySpan

/-- Does the last statement of a case body carry a trailing suppression
comment?  (The only place `visit_switch_cases` reads trailing comments.) -/
def trailingSuppressed (ctx : FCtx) (cons : List FStmt) : Bool :=
  match cons.getLast? with
  | some stmt =>
    match ctx.trailing stmt.span.hi with
    | some comments => allowFallThrough comments
    | none => false
  | none => false

/-- Does a case carry a leading suppression comment at its span start? -/
def leadingSuppressed (ctx : FCtx) (c : SwitchCase) : Bool :=
  match ctx.leading c.span.lo with
  | some comments => allowFallThrough comments
  | none => false

/-- The `should_emit_err` value the statement scan computes for a case when
no trailing suppression comment intervenes: true unless some statement's
oracle entry reports it stops execution (a miss counting as `false`). -/
def scanVerdict (ctx : FCtx) (cons : List FStmt) : Bool :=
  !(cons.any fun stmt =>
      ((ctx.meta stmt.span.lo).map Meta.stopsExecution).getD false)

/-- The fallthrough verdict for a case followed by `next`, after the
empty-body adjustment (lines 96–108). -/
def caseVerdict (ctx : FCtx) (c : SwitchCase) (next : SwitchCase) : Bool :=
  if next.test.isNone then
    if caseEmpty c.cons then true else scanVerdict ctx c.cons
  else
    if caseEmpty c.cons then false else scanVerdict ctx c.cons

/-- The claim's notion of an empty case body: no statements at all, or a
single statement that is an empty block (narrower than the code's test,
which only looks at the first statement). -/
def specEmptyBody : List FStmt → Bool
  | [] => true
  | [FStmt.block stmts _] => stmts.isEmpty
  | _ => false

end DenoLint.NoFallthrough

namespace DenoLint.GetterReturn

/-- `swc_ecmascript::ast::MethodKind`. -/
inductive MethodKind where
  | getter
  | setter
  | methodKind
deriving DecidableEq, Repr

/-- `swc_ecmascript::ast::PropName`: identifier keys, statically resolvable
literal keys (string/number), and computed keys. -/
inductive PropName where
  | ident (sym : String)
  | litKey (s : String)
  | computedKey
deriving DecidableEq, Repr

/-- Modelled from the spec: `crate::swc_util::Key::get_key` (swc_util.rs is
not part of the four source files).  Per spec §4.2 the getter name falls
back to the placeholder `"[GETTER]"` "when the key cannot be statically
resolved, e.g. a computed key"; identifier and literal keys resolve to their
text. -/
def PropName.getKey : PropName → Option String
  | .ident sym => some sym
  | .litKey s => some s
  | .computedKey => none

mutual

/-- The expressions `getter_return.rs` distinguishes (plus the generic rest
of the syntax tree, whose children the default swc traversal still visits):
identifiers, function expressions, arrow functions, object literals, member
expressions, call expressions, parenthesized expressions, class
expressions, and everything else with its expression children.  The list
and option types are part of this mutual family (`ExprList`, `OptBlock`,
…) so that the visitor below is structurally recursive. -/
inductive Expr where
  | ident (sym : String) (span : Span)
  | fnE (body : OptBlock) (span : Span)
  | arrow (body : ArrowBody) (span : Span)
  | obj (props : PropList) (span : Span)
  | member (obj : ExprOrSuper) (prop : Expr) (span : Span)
  | call (callee : ExprOrSuper) (args : ExprList) (span : Span)
  | paren (inner : Expr) (span : Span)
  | classE (members : MemberList) (span : Span)
  | otherE (children : ExprList) (span : Span)

/-- A list of expressions (`Vec<ExprOrSpread>` for call arguments — the
spread flag is never read by this rule — and generic children). -/
inductive ExprList where
  | nilE
  | consE (head : Expr) (tail : ExprList)

/-- `Option<Expr>` (a return statement's argument). -/
inductive OptExpr where
  | noneE
  | someE (e : Expr)

/-- `swc_ecmascript::ast::ExprOrSuper` (callee / member object). -/
inductive ExprOrSuper where
  | superE
  | expr (e : Expr)

/-- `swc_ecmascript::ast::BlockStmtOrExpr` (an arrow function's body). -/
inductive ArrowBody where
  | blockStmt (b : Block)
  | expr (e : Expr)

/-- `swc_ecmascript::ast::BlockStmt`. -/
inductive Block where
  | mk (stmts : StmtList) (span : Span)

/-- `Option<BlockStmt>` (a function's body). -/
inductive OptBlock where
  | noneB
  | someB (b : Block)

/-- The statements `getter_return.rs` distinguishes: return statements
(`visit_return_stmt` is overridden and does not descend into the returned
expression), plus blocks, expression statements, class declarations and
everything else with its statement and expression children. -/
inductive Stmt where
  | ret (arg : OptExpr) (span : Span)
  | blockS (b : Block)
  | exprStmt (e : Expr) (span : Span)
  | classDecl (members : MemberList) (span : Span)
  | otherS (stmts : StmtList) (exprs : ExprList) (span : Span)

/-- A list of statements. -/
inductive StmtList where
  | nilS
  | consS (head : Stmt) (tail : StmtList)

/-- Class members: public methods (`ClassMethod`), private methods
(`PrivateMethod`) — both routed through the `visit_getter` wrapper whatever
their kind — and everything else. -/
inductive ClassMember where
  | methodM (kind : MethodKind) (key : PropName) (body : OptBlock) (span : Span)
  | privateM (kind : MethodKind) (key : String) (body : OptBlock) (span : Span)
  | otherM (span : Span)

/-- A list of class members. -/
inductive MemberList where
  | nilM
  | consM (head : ClassMember) (tail : MemberList)

/-- `swc_ecmascript::ast::PropOrSpread` inside an object literal:
key-value properties, method properties, getter properties
(`visit_getter_prop` is overridden), spread elements, and the rest
(setters etc.).  The span is `prop.span()`. -/
inductive PropItem where
  | keyValue (key : PropName) (value : Expr) (span : Span)
  | methodP (key : PropName) (body : OptBlock) (span : Span)
  | getterP (key : PropName) (body : OptBlock) (span : Span)
  | spread (e : Expr) (span : Span)
  | otherP (span : Span)

/-- A list of object-literal properties. -/
inductive PropList where
  | nilP
  | consP (head : PropItem) (tail : PropList)

end

/-- The span of a block. -/
def Block.span : Block → Span
  | .mk _ sp => sp

/-- `Option::is_none` on a return statement's argument. -/
def OptExpr.isNone : OptExpr → Bool
  | .noneE => true
  | .someE _ => false

/-- `Vec::len` on an argument list. -/
def ExprList.length : ExprList → Nat
  | .nilE => 0
  | .consE _ rest => rest.length + 1

/-- Build an `ExprList` from a Lean list (used to write inputs only). -/
def ExprList.ofList : List Expr → ExprList
  | [] => .nilE
  | e :: rest => .consE e (ExprList.ofList rest)

/-- Build a `StmtList` from a Lean list (used to write inputs only). -/
def StmtList.ofList : List Stmt → StmtList
  | [] => .nilS
  | st :: rest => .consS st (StmtList.ofList rest)

/-- Build a `MemberList` from a Lean list (used to write inputs only). -/
def MemberList.ofList : List ClassMember → MemberList
  | [] => .nilM
  | m :: rest => .consM m (MemberList.ofList rest)

/-- Build a `PropList` from a Lean list (used to write inputs only). -/
def PropList.ofList : List PropItem → PropList
  | [] => .nilP
  | p :: rest => .consP p (PropList.ofList rest)

/-- The mutable state of `GetterReturnVisitor`: the buffered diagnostics
(`errors: BTreeMap<Span, String>`, here an association list with replacing
insert — the map's key ordering only affects report order), the name of the
getter currently being checked (`getter_name`), and whether a return
statement has been seen (`has_return`). -/
structure GState where
  errors : List (Span × String)
  getterName : Option String
  hasReturn : Bool
deriving DecidableEq, Repr

/-- `BTreeMap::insert`: replace the value at an existing key, otherwise add
the entry. -/
def insertError : List (Span × String) → Span → String → List (Span × String)
  | [], sp, msg => [(sp, msg)]
  | (s, m) :: rest, sp, msg =>
    if s = sp then (sp, msg) :: rest else (s, m) :: insertError rest sp msg

/-- Look up the buffered diagnostic at a span. -/
def lookupError : List (Span × String) → Span → Option String
  | [], _ => none
  | (s, m) :: rest, sp => if s = sp then some m else lookupError rest sp

/-- The message of `report_expected` (getter_return.rs, lines 106–117). -/
def expectedMsg (name : String) : String :=
  "Expected to return a value in " ++ name ++ "."

/-- The message of `report_always_expected` (lines 119–130). -/
def alwaysExpectedMsg (name : String) : String :=
  "Expected " ++ name ++ " to always return a value."

/-- `GetterReturnVisitor::report_expected`: formats the message with
`self.getter_name.clone().expect(..)` — a panic (modelled as `none`) when no
name is set. -/
def reportExpected (s : GState) (sp : Span) : Option GState :=
  match s.getterName with
  | none => none
  | some name =>
    some { s with errors := insertError s.errors sp (expectedMsg name) }

/-- `GetterReturnVisitor::report_always_expected`: as `report_expected` with
the other message. -/
def reportAlwaysExpected (s : GState) (sp : Span) : Option GState :=
  match s.getterName with
  | none => none
  | some name =>
    some { s with errors := insertError s.errors sp (alwaysExpectedMsg name) }

/-- `GetterReturnVisitor::check_getter` (getter_return.rs, lines 132–150):
nothing to do without an active getter name; otherwise query the oracle at
the body span's `lo` and `.unwrap()` it — a panic (modelled as `none`) on a
miss — and report when control can still fall off the end of the body,
choosing the message by `has_return`. -/
def checkGetter (oracle : Oracle) (s : GState) (getterBodySpan getterSpan : Span) :
    Option GState :=
  if s.getterName.isNone then some s
  else
    match oracle getterBodySpan.lo with
    | none => none
    | some m =>
      if m.continuesExecution then
        if s.hasReturn then reportAlwaysExpected s getterSpan
        else reportExpected s getterSpan
      else some s

/-- `GetterReturnVisitor::set_getter_name` for a `PropName` key. -/
def setGetterName (s : GState) (key : PropName) : GState :=
  { s with getterName := some (key.getKey.getD "[GETTER]") }

/-- `set_getter_name` for a `PrivateName` key (always resolvable). -/
def setGetterNameStr (s : GState) (key : String) : GState :=
  { s with getterName := some key }

/-- `GetterReturnVisitor::visit_getter` (getter_return.rs, lines 157–166):
`mem::take` the current getter name (leaving `None` for the duration of
`op`), remember `has_return` (which is *not* reset for `op`), run `op`, and
restore both fields.  `none` propagates a panic inside `op`.  The visitor
functions below inline this save/run/restore pattern around their `…Op`
functions (so that the mutual recursion stays structural); the lemmas
`visitClassMember_eq_visitGetter` and friends state — definitionally — that
they factor through `visitGetter` exactly. -/
def visitGetter (op : GState → Option GState) (s : GState) : Option GState :=
  let prevName := s.getterName
  let prevHasReturn := s.hasReturn
  match op { s with getterName := none } with
  | none => none
  | some s2 => some { s2 with getterName := prevName, hasReturn := prevHasReturn }

/-- The callee screen in `visit_call_expr` (getter_return.rs, lines
219–234): the analysis bails out (`return`) exactly when the callee is a
member expression whose object is an identifier other than `Object`, or
whose property is an identifier other than `defineProperty`.  Every other
callee shape falls through the `if let` chain without returning. -/
def calleeRejects : ExprOrSuper → Bool
  | .expr (Expr.member obj prop _) =>
    (match obj with
     | .expr (Expr.ident sym _) => sym ≠ "Object"
     | _ => false)
    ||
    (match prop with
     | Expr.ident sym _ => sym ≠ "defineProperty"
     | _ => false)
  | _ => false

/-- From the claim's words (C5): the callee is the two-name
static-property-definition member access `Object.defineProperty`. -/
def specDefinePropertyCallee : ExprOrSuper → Bool
  | .expr (Expr.member (.expr (Expr.ident o _)) (Expr.ident p _) _) =>
    o = "Object" && p = "defineProperty"
  | _ => false

mutual

/-- `Visit for GetterReturnVisitor` on an expression.  Overridden nodes
(`visit_call_expr`) follow the override; everything else is the default
swc traversal into children. -/
def visitExpr (oracle : Oracle) : Expr → GState → Option GState
  | .ident _ _, s => some s
  | .fnE body _, s => visitOptBlock oracle body s
  | .arrow body _, s => visitArrowBody oracle body s
  | .obj props _, s => visitPropList oracle props s
  | .member obj prop _, s =>
    match visitExprOrSuper oracle obj s with
    | none => none
    | some s1 => visitExpr oracle prop s1
  | .call callee args _, s =>
    -- `visit_call_expr` (lines 213–281): children first, then the
    -- static-property-definition analysis
    (match visitExprOrSuper oracle callee s with
     | none => none
     | some s0 =>
       match visitExprList oracle args s0 with
       | none => none
       | some s1 => visitCallSpecial oracle callee args s1)
  | .paren inner _, s => visitExpr oracle inner s
  | .classE members _, s => visitMemberList oracle members s
  | .otherE children _, s => visitExprList oracle children s

/-- The special part of `visit_call_expr` after the children have been
visited (getter_return.rs, lines 216–281): bail out unless there are
exactly three arguments; bail out when the callee screen rejects; when the
third argument (`call_expr.args[2]`) is an object literal, run the loop
over its properties. -/
def visitCallSpecial (oracle : Oracle) (callee : ExprOrSuper) (args : ExprList)
    (s : GState) : Option GState :=
  if args.length ≠ 3 then some s
  else if calleeRejects callee then some s
  else
    -- `call_expr.args[2]` (safe: the length is exactly 3 here)
    match args with
    | .consE _ (.consE _ (.consE (Expr.obj props _) .nilE)) =>
      visitDefinePropsLoop oracle props s
    | _ => some s

/-- Default traversal of an expression list. -/
def visitExprList (oracle : Oracle) : ExprList → GState → Option GState
  | .nilE, s => some s
  | .consE e rest, s =>
    match visitExpr oracle e s with
    | none => none
    | some s1 => visitExprList oracle rest s1

/-- Default traversal of `ExprOrSuper` (`super` has no children). -/
def visitExprOrSuper (oracle : Oracle) : ExprOrSuper → GState → Option GState
  | .superE, s => some s
  | .expr e, s => visitExpr oracle e s

/-- Default traversal of an arrow function body. -/
def visitArrowBody (oracle : Oracle) : ArrowBody → GState → Option GState
  | .blockStmt b, s => visitBlock oracle b s
  | .expr e, s => visitExpr oracle e s

/-- Default traversal of a block: visit its statements. -/
def visitBlock (oracle : Oracle) : Block → GState → Option GState
  | .mk stmts _, s => visitStmtList oracle stmts s

/-- Default traversal of an optional function body. -/
def visitOptBlock (oracle : Oracle) : OptBlock → GState → Option GState
  | .noneB, s => some s
  | .someB b, s => visitBlock oracle b s

/-- `Visit for GetterReturnVisitor` on a statement.  `visit_return_stmt`
(lines 283–290) is the override: with an active getter name it records
`has_return = true` and reports a bare `return` at the return's span; it
never descends into the returned expression. -/
def visitStmt (oracle : Oracle) : Stmt → GState → Option GState
  | .ret arg sp, s =>
    if s.getterName.isSome then
      let s := { s with hasReturn := true }
      if arg.isNone then reportExpected s sp else some s
    else some s
  | .blockS b, s => visitBlock oracle b s
  | .exprStmt e _, s => visitExpr oracle e s
  | .classDecl members _, s => visitMemberList oracle members s
  | .otherS stmts exprs _, s =>
    match visitStmtList oracle stmts s with
    | none => none
    | some s1 => visitExprList oracle exprs s1

/-- Default traversal of a statement list. -/
def visitStmtList (oracle : Oracle) : StmtList → GState → Option GState
  | .nilS, s => some s
  | .consS st rest, s =>
    match visitStmt oracle st s with
    | none => none
    | some s1 => visitStmtList oracle rest s1

/-- `visit_class_method` (lines 172–183) and `visit_private_method` (lines
185–200): every method — getter or not — runs its op (set the getter name
when the method is a getter, traverse the children, `check_getter` on the
body's span against the method's span) under the `visit_getter`
save/run/restore wrapper.  Wrapper and op are inlined here so the mutual
recursion stays structural; `visitClassMember_eq_visitGetter` states,
definitionally, that this equals `visitGetter` of `visitMethodOp` /
`visitPrivateOp`. -/
def visitClassMember (oracle : Oracle) : ClassMember → GState → Option GState
  | .methodM kind key body sp, s =>
    (match (match visitOptBlock oracle body
              (if kind = MethodKind.getter
                then setGetterName { s with getterName := none } key
                else { s with getterName := none }) with
            | none => none
            | some a2 =>
              match body with
              | .someB b => checkGetter oracle a2 b.span sp
              | .noneB => some a2) with
     | none => none
     | some s2 =>
       some { s2 with getterName := s.getterName, hasReturn := s.hasReturn })
  | .privateM kind key body sp, s =>
    (match (match visitOptBlock oracle body
              (if kind = MethodKind.getter
                then setGetterNameStr { s with getterName := none } key
                else { s with getterName := none }) with
            | none => none
            | some a2 =>
              match body with
              | .someB b => checkGetter oracle a2 b.span sp
              | .noneB => some a2) with
     | none => none
     | some s2 =>
       some { s2 with getterName := s.getterName, hasReturn := s.hasReturn })
  | .otherM _, s => some s

/-- Default traversal of a class-member list. -/
def visitMemberList (oracle : Oracle) : MemberList → GState → Option GState
  | .nilM, s => some s
  | .consM m rest, s =>
    match visitClassMember oracle m s with
    | none => none
    | some s1 => visitMemberList oracle rest s1

/-- Traversal of one object-literal property.  `visit_getter_prop` (lines
202–211) is the override for getter properties: set the getter name,
traverse the children, `check_getter` the body's span against
`getter_prop.span`, all under the `visit_getter` wrapper (inlined here; see
`visitPropItem_getterP_eq_visitGetter`); the other shapes follow the
default traversal into their children. -/
def visitPropItem (oracle : Oracle) : PropItem → GState → Option GState
  | .keyValue _ value _, s => visitExpr oracle value s
  | .methodP _ body _, s => visitOptBlock oracle body s
  | .getterP key body sp, s =>
    (match (match visitOptBlock oracle body
              (setGetterName { s with getterName := none } key) with
            | none => none
            | some a2 =>
              match body with
              | .someB b => checkGetter oracle a2 b.span sp
              | .noneB => some a2) with
     | none => none
     | some s2 =>
       some { s2 with getterName := s.getterName, hasReturn := s.hasReturn })
  | .spread e _, s => visitExpr oracle e s
  | .otherP _, s => some s

/-- Default traversal of an object-literal property list. -/
def visitPropList (oracle : Oracle) : PropList → GState → Option GState
  | .nilP, s => some s
  | .consP p rest, s =>
    match visitPropItem oracle p s with
    | none => none
    | some s1 => visitPropList oracle rest s1

/-- The loop over the third argument's properties in `visit_call_expr`
(getter_return.rs, lines 235–280).  A key-value or method property whose
key is an identifier other than `get` makes the whole function `return`
(dropping the remaining properties); a `get` entry runs its own
`visit_getter` cycle — set the getter name; for a function expression with
a body or an arrow function with a block body, visit that body's children
and run `check_getter` on it against `prop.span()`; any other value shape —
in particular an arrow function with an expression body — only has the name
set (wrapper and ops inlined here; see
`visitDefinePropsLoop_keyValue_eq_visitGetter` and
`visitDefinePropsLoop_methodP_eq_visitGetter`); properties with non-ident
keys or of any other shape are skipped and the loop continues. -/
def visitDefinePropsLoop (oracle : Oracle) : PropList → GState → Option GState
  | .nilP, s => some s
  | .consP (.keyValue (.ident sym) value sp) rest, s =>
    if sym ≠ "get" then some s
    else
      match (match (match value with
                    | Expr.fnE (.someB b) _ =>
                      (match visitBlock oracle b
                         (setGetterName { s with getterName := none }
                           (.ident sym)) with
                       | none => none
                       | some a2 => checkGetter oracle a2 b.span sp)
                    | Expr.arrow (.blockStmt blk) _ =>
                      (match visitBlock oracle blk
                         (setGetterName { s with getterName := none }
                           (.ident sym)) with
                       | none => none
                       | some a2 => checkGetter oracle a2 blk.span sp)
                    | _ =>
                      some (setGetterName { s with getterName := none }
                        (.ident sym))) with
             | none => none
             | some s2 =>
               some { s2 with getterName := s.getterName,
                              hasReturn := s.hasReturn }) with
      | none => none
      | some s2 => visitDefinePropsLoop oracle rest s2
  | .consP (.methodP (.ident sym) body sp) rest, s =>
    if sym ≠ "get" then some s
    else
      match (match (match body with
                    | .someB b =>
                      (match visitBlock oracle b
                         (setGetterName { s with getterName := none }
                           (.ident sym)) with
                       | none => none
                       | some a2 => checkGetter oracle a2 b.span sp)
                    | .noneB =>
                      some (setGetterName { s with getterName := none }
                        (.ident sym))) with
             | none => none
             | some s2 =>
               some { s2 with getterName := s.getterName,
                              hasReturn := s.hasReturn }) with
      | none => none
      | some s2 => visitDefinePropsLoop oracle rest s2
  | .consP _ rest, s => visitDefinePropsLoop oracle rest s

end

/-- The closure passed to `visit_getter` by `visit_class_method` (lines
173–182): set the getter name when the method is a getter, traverse the
method's children, and run `check_getter` on the body's span against the
method's span.  (`visitClassMember` inlines `visitGetter` applied to this
function; the two agree definitionally.) -/
def visitMethodOp (oracle : Oracle) (kind : MethodKind) (key : PropName)
    (body : OptBlock) (sp : Span) (a : GState) : Option GState :=
  match visitOptBlock oracle body
      (if kind = MethodKind.getter then setGetterName a key else a) with
  | none => none
  | some a2 =>
    match body with
    | .someB b => checkGetter oracle a2 b.span sp
    | .noneB => some a2

/-- The closure passed to `visit_getter` by `visit_private_method` (lines
190–199). -/
def visitPrivateOp (oracle : Oracle) (kind : MethodKind) (key : String)
    (body : OptBlock) (sp : Span) (a : GState) : Option GState :=
  match visitOptBlock oracle body
      (if kind = MethodKind.getter then setGetterNameStr a key else a) with
  | none => none
  | some a2 =>
    match body with
    | .someB b => checkGetter oracle a2 b.span sp
    | .noneB => some a2

/-- The closure passed to `visit_getter` by `visit_getter_prop` (lines
203–210): set the getter name, traverse the property's children, and run
`check_getter` on the body's span against `getter_prop.span`. -/
def visitGetterPropOp (oracle : Oracle) (key : PropName) (body : OptBlock)
    (sp : Span) (a : GState) : Option GState :=
  match visitOptBlock oracle body (setGetterName a key) with
  | none => none
  | some a2 =>
    match body with
    | .someB b => checkGetter oracle a2 b.span sp
    | .noneB => some a2

/-- The closure passed to `visit_getter` for a `get` key-value entry of the
third `Object.defineProperty` argument (getter_return.rs, lines 244–260). -/
def visitKeyValueOp (oracle : Oracle) (key : PropName) (value : Expr)
    (sp : Span) (a : GState) : Option GState :=
  match value with
  | Expr.fnE (.someB b) _ =>
    (match visitBlock oracle b (setGetterName a key) with
     | none => none
     | some a2 => checkGetter oracle a2 b.span sp)
  | Expr.arrow (.blockStmt blk) _ =>
    (match visitBlock oracle blk (setGetterName a key) with
     | none => none
     | some a2 => checkGetter oracle a2 blk.span sp)
  | _ => some (setGetterName a key)

/-- The closure passed to `visit_getter` for a `get` method entry of the
third `Object.defineProperty` argument (lines 268–275). -/
def visitMethodPropOp (oracle : Oracle) (key : PropName) (body : OptBlock)
    (sp : Span) (a : GState) : Option GState :=
  match body with
  | .someB b =>
    (match visitBlock oracle b (setGetterName a key) with
     | none => none
     | some a2 => checkGetter oracle a2 b.span sp)
  | .noneB => some (setGetterName a key)

/-- The fresh visitor state of `GetterReturnVisitor::new`. -/
def initState : GState := ⟨[], none, false⟩

/-- `GetterReturn::lint_module`: traverse the module's statements with a
fresh visitor and collect the buffered diagnostics (which `report` then
emits in map order with the fixed hint). -/
def lintModule (oracle : Oracle) (stmts : StmtList) : Option (List (Span × String)) :=
  match visitStmtList oracle stmts initState with
  | none => none
  | some s => some s.errors

end DenoLint.GetterReturn

namespace DenoLint.GetterReturn

/-!  Concrete modules and oracles used below to settle the claims about the
getter-return analysis.  Spans are arbitrary distinct byte ranges. -/

/-- `const foo = { get outer() { ({ get inner() {} }); return v; } };` —
a returning outer getter with a non-returning inner getter before the
return.  The inner body starts at byte 30, the outer body at byte 10. -/
def progNested : StmtList := StmtList.ofList
  [Stmt.exprStmt
    (Expr.obj (PropList.ofList
      [PropItem.getterP (PropName.ident "outer")
        (.someB (Block.mk (StmtList.ofList
          [Stmt.exprStmt
             (Expr.obj (PropList.ofList
               [PropItem.getterP (PropName.ident "inner")
                 (.someB (Block.mk .nilS ⟨30, 32⟩)) ⟨20, 33⟩])
               ⟨19, 34⟩)
             ⟨18, 35⟩,
           Stmt.ret (.someE (Expr.ident "v" ⟨37, 38⟩)) ⟨36, 39⟩])
          ⟨10, 40⟩))
        ⟨5, 41⟩])
      ⟨4, 42⟩)
    ⟨4, 43⟩]

/-- Oracle for `progNested`: control can fall off the end of the inner
(empty) body at byte 30; it cannot fall off the end of the outer body at
byte 10 (the outer getter returns on every path). -/
def oracleNested : Oracle := fun pos =>
  if pos = 30 then some ⟨true, false⟩
  else if pos = 10 then some ⟨false, false⟩
  else none

/-- `const foo = { get outer() { return v; ({ get inner() {} }); } };` —
the outer getter's `return` is traversed *before* the nested
non-returning inner getter. -/
def progRetFirst : StmtList := StmtList.ofList
  [Stmt.exprStmt
    (Expr.obj (PropList.ofList
      [PropItem.getterP (PropName.ident "outer")
        (.someB (Block.mk (StmtList.ofList
          [Stmt.ret (.someE (Expr.ident "v" ⟨12, 13⟩)) ⟨11, 14⟩,
           Stmt.exprStmt
             (Expr.obj (PropList.ofList
               [PropItem.getterP (PropName.ident "inner")
                 (.someB (Block.mk .nilS ⟨30, 32⟩)) ⟨20, 33⟩])
               ⟨19, 34⟩)
             ⟨18, 35⟩])
          ⟨10, 40⟩))
        ⟨5, 41⟩])
      ⟨4, 42⟩)
    ⟨4, 43⟩]

/-- Oracle for `progRetFirst` (same coverage as `oracleNested`). -/
def oracleRetFirst : Oracle := fun pos =>
  if pos = 30 then some ⟨true, false⟩
  else if pos = 10 then some ⟨false, false⟩
  else none

/-- `class C { get outer() { return v; ({ get inner() {} }); } }` — the
class-getter variant of `progRetFirst`. -/
def progClassRetFirst : StmtList := StmtList.ofList
  [Stmt.classDecl (MemberList.ofList
    [ClassMember.methodM MethodKind.getter (PropName.ident "outer")
      (.someB (Block.mk (StmtList.ofList
        [Stmt.ret (.someE (Expr.ident "v" ⟨12, 13⟩)) ⟨11, 14⟩,
         Stmt.exprStmt
           (Expr.obj (PropList.ofList
             [PropItem.getterP (PropName.ident "inner")
               (.someB (Block.mk .nilS ⟨50, 52⟩)) ⟨45, 53⟩])
             ⟨44, 54⟩)
           ⟨43, 55⟩])
        ⟨10, 56⟩))
      ⟨6, 57⟩])
    ⟨0, 58⟩]

/-- Oracle for `progClassRetFirst`: the inner body (byte 50) can fall
through; the outer body (byte 10) cannot. -/
def oracleClassRetFirst : Oracle := fun pos =>
  if pos = 50 then some ⟨true, false⟩
  else if pos = 10 then some ⟨false, false⟩
  else none

/-- `const foo = { get outer() { ~function() { return x; }(); } };` — a
getter whose only `return` sits inside a nested plain function
expression. -/
def progFnNested : StmtList := StmtList.ofList
  [Stmt.exprStmt
    (Expr.obj (PropList.ofList
      [PropItem.getterP (PropName.ident "outer")
        (.someB (Block.mk (StmtList.ofList
          [Stmt.exprStmt
            (Expr.otherE (ExprList.ofList
              [Expr.fnE (.someB (Block.mk (StmtList.ofList
                 [Stmt.ret (.someE (Expr.ident "x" ⟨20, 21⟩)) ⟨19, 22⟩]) ⟨18, 23⟩))
                 ⟨16, 24⟩])
              ⟨15, 25⟩)
            ⟨15, 26⟩])
          ⟨10, 27⟩))
        ⟨5, 28⟩])
      ⟨4, 29⟩)
    ⟨4, 30⟩]

/-- Oracle for `progFnNested`: the getter body (byte 10) can fall through
(the nested function's `return` does not exit the getter). -/
def oracleFnNested : Oracle := fun pos =>
  if pos = 10 then some ⟨true, false⟩ else none

/-- `const foo = { get outer() { class C { m() { return x; } } } };` — a
getter containing a non-getter class method whose body returns a value. -/
def progMethodNested : StmtList := StmtList.ofList
  [Stmt.exprStmt
    (Expr.obj (PropList.ofList
      [PropItem.getterP (PropName.ident "outer")
        (.someB (Block.mk (StmtList.ofList
          [Stmt.classDecl (MemberList.ofList
            [ClassMember.methodM MethodKind.methodKind (PropName.ident "m")
              (.someB (Block.mk (StmtList.ofList
                [Stmt.ret (.someE (Expr.ident "x" ⟨20, 21⟩)) ⟨19, 22⟩]) ⟨18, 23⟩))
              ⟨16, 24⟩])
            ⟨15, 26⟩])
          ⟨10, 27⟩))
        ⟨5, 28⟩])
      ⟨4, 29⟩)
    ⟨4, 30⟩]

/-- Oracle for `progMethodNested`: the getter body (byte 10) can fall
through. -/
def oracleMethodNested : Oracle := fun pos =>
  if pos = 10 then some ⟨true, false⟩ else none

/-- `foo(a, b, { get: () => {} });` — a three-argument call whose callee is
the bare identifier `foo`, with a `get` entry (arrow function with an empty
block body) in the third argument. -/
def progIdentCallee : StmtList := StmtList.ofList
  [Stmt.exprStmt
    (Expr.call (ExprOrSuper.expr (Expr.ident "foo" ⟨0, 3⟩))
      (ExprList.ofList
        [Expr.ident "a" ⟨4, 5⟩, Expr.ident "b" ⟨6, 7⟩,
         Expr.obj (PropList.ofList
           [PropItem.keyValue (PropName.ident "get")
             (Expr.arrow (ArrowBody.blockStmt (Block.mk .nilS ⟨50, 52⟩)) ⟨45, 53⟩)
             ⟨40, 54⟩])
           ⟨39, 55⟩])
      ⟨0, 56⟩)
    ⟨0, 57⟩]

/-- Oracle for `progIdentCallee`: the `get` arrow's block body (byte 50)
can fall through. -/
def oracleIdentCallee : Oracle := fun pos =>
  if pos = 50 then some ⟨true, false⟩ else none


end DenoLint.GetterReturn

namespace DenoLint.NoFallthrough

/-- A context with no comments anywhere and an oracle that covers no
position at all. -/
def missCtx : FCtx := ⟨fun _ => none, fun _ => none, fun _ => none⟩

/-- A context with an empty comment list at every position and an oracle
that answers "does not stop execution" everywhere — the "no information
available" reading of every lookup. -/
def noInfoCtx : FCtx :=
  ⟨fun _ => some [], fun _ => some [], fun _ => some ⟨false, false⟩⟩

/-- A case whose body is an empty block followed by another statement —
"empty" for the code's test (which looks only at the first statement) but
not for the claim's ("no statements, or a single empty block"). -/
def blockThenStmtCase : SwitchCase :=
  ⟨some (), [FStmt.block [] ⟨1, 2⟩, FStmt.other ⟨3, 4⟩], ⟨0, 5⟩⟩

/-- A default case (`test = None`) with a one-statement body. -/
def defaultCase : SwitchCase := ⟨none, [FStmt.other ⟨8, 9⟩], ⟨6, 10⟩⟩

/-- A non-default case with the same body and span as `defaultCase`. -/
def nonDefaultCase : SwitchCase := ⟨some (), [FStmt.other ⟨8, 9⟩], ⟨6, 10⟩⟩

end DenoLint.NoFallthrough

namespace DenoLint.NoAsyncPromiseExecutor

/-- `is_async_function` holds exactly when stripping all outer parentheses
leaves an async function expression or an async arrow function. -/
theorem isAsyncFunction_iff_strip (e : NExpr) :
    isAsyncFunction e = true ↔
      stripParens e = NExpr.fnE true ∨ stripParens e = NExpr.arrow true := by
  induction e with
  | ident sym => simp [isAsyncFunction, stripParens]
  | fnE isAsync => cases isAsync <;> simp [isAsyncFunction, stripParens]
  | arrow isAsync => cases isAsync <;> simp [isAsyncFunction, stripParens]
  | paren inner ih => simpa [isAsyncFunction, stripParens] using ih
  | otherE => simp [isAsyncFunction, stripParens]

/-- C10.  For every `new` expression, `no-async-promise-executor` emits
exactly one diagnostic, at the `new` expression's span, precisely when the
callee is the bare identifier `Promise` and the first argument — after
unwrapping arbitrarily many layers of parentheses — is an async function
expression or an async arrow function; in every other situation (no
arguments, non-async executor, async function not in the first position,
non-identifier callee) it emits nothing. -/
theorem noAsyncPromiseExecutor_flags_iff_c10 (ne : NewExpr) :
    (visitNewExpr ne = [ne.span] ↔
      ne.callee = NExpr.ident "Promise" ∧
        ∃ firstArg rest, ne.args = some (firstArg :: rest) ∧
          (stripParens firstArg = NExpr.fnE true ∨
            stripParens firstArg = NExpr.arrow true)) ∧
    (visitNewExpr ne = [ne.span] ∨ visitNewExpr ne = []) := by
  obtain ⟨callee, args, span⟩ := ne
  match callee, args with
  | .ident sym, none =>
    by_cases hsym : sym = "Promise" <;>
      simp [visitNewExpr, hsym]
  | .ident sym, some [] =>
    by_cases hsym : sym = "Promise" <;>
      simp [visitNewExpr, hsym]
  | .ident sym, some (firstArg :: rest) =>
    by_cases hsym : sym = "Promise"
    · subst hsym
      by_cases ha : isAsyncFunction firstArg
      · simp [visitNewExpr, List.head?, ha,
          (isAsyncFunction_iff_strip firstArg).mp ha]
      · constructor
        · simp only [visitNewExpr, List.head?]
          constructor
          · intro h; simp [ha] at h
          · rintro ⟨-, f, r, hfr, hstrip⟩
            obtain ⟨rfl, rfl⟩ : firstArg = f ∧ rest = r := by
              simpa using hfr
            exact absurd ((isAsyncFunction_iff_strip firstArg).mpr hstrip) ha
        · right; simp [visitNewExpr, List.head?, ha]
    · simp [visitNewExpr, hsym]
  | .fnE b, args => simp [visitNewExpr]
  | .arrow b, args => simp [visitNewExpr]
  | .paren inner, args => simp [visitNewExpr]
  | .otherE, args => simp [visitNewExpr]

/-- Witness for C10: `new Promise(((async () => {})))` is flagged at the
`new` expression's span. -/
theorem noAsyncPromiseExecutor_flags_iff_c10_witness :
    visitNewExpr
        ⟨NExpr.ident "Promise",
         some [NExpr.paren (NExpr.paren (NExpr.arrow true))], ⟨0, 36⟩⟩ =
      [(⟨0, 36⟩ : Span)] :=
  (noAsyncPromiseExecutor_flags_iff_c10
      ⟨NExpr.ident "Promise",
       some [NExpr.paren (NExpr.paren (NExpr.arrow true))], ⟨0, 36⟩⟩).1.mpr
    ⟨rfl, NExpr.paren (NExpr.paren (NExpr.arrow true)), [], rfl, Or.inr rfl⟩

end DenoLint.NoAsyncPromiseExecutor

namespace DenoLint.NoCondAssign

/-- C6.  `check_condition` reports a diagnostic at a span exactly when an
assignment expression with that span is the condition's top-level node or
is reachable from the top level through operands of logical-OR binary
expressions only; in particular no other binary operator is recursed into
and a parenthesized expression wrapping the assignment yields nothing. -/
theorem noCondAssign_or_chain_iff_c6 (e : CExpr) (sp : Span) :
    sp ∈ checkCondition e ↔ OrReach e sp := by
  induction e with
  | assign l r spA ihl ihr =>
    simp only [checkCondition, List.mem_singleton]
    constructor
    · rintro rfl; exact OrReach.assignTop _ _ _
    · rintro h; cases h; rfl
  | bin op l r spB ihl ihr =>
    by_cases hop : op = BinOp.logicalOr
    · subst hop
      simp only [checkCondition, if_pos rfl]
      constructor
      · intro h
        rcases List.mem_append.mp h with h | h
        · exact OrReach.orLeft r spB (ihl.mp h)
        · exact OrReach.orRight l spB (ihr.mp h)
      · intro h
        cases h with
        | orLeft _ _ h => exact List.mem_append.mpr (Or.inl (ihl.mpr h))
        | orRight _ _ h => exact List.mem_append.mpr (Or.inr (ihr.mpr h))
    · simp only [checkCondition, if_neg hop, List.not_mem_nil, false_iff]
      intro h
      cases h with
      | orLeft _ _ _ => exact hop rfl
      | orRight _ _ _ => exact hop rfl
  | paren inner spP ih =>
    simp only [checkCondition, List.not_mem_nil, false_iff]
    intro h; cases h
  | condE t c a spC iht ihc iha =>
    simp only [checkCondition, List.not_mem_nil, false_iff]
    intro h; cases h
  | otherE spO =>
    simp only [checkCondition, List.not_mem_nil, false_iff]
    intro h; cases h

/-- Witness for C6: in `a || (b = c)` (the parenthesization is gone in the
syntax tree only when the assignment is itself the whole operand — here the
right operand is directly the assignment), the assignment's span is
reported. -/
theorem noCondAssign_or_chain_iff_c6_witness :
    (⟨5, 10⟩ : Span) ∈
      checkCondition
        (CExpr.bin BinOp.logicalOr (CExpr.otherE ⟨0, 1⟩)
          (CExpr.assign (CExpr.otherE ⟨5, 6⟩) (CExpr.otherE ⟨9, 10⟩) ⟨5, 10⟩)
          ⟨0, 11⟩) :=
  (noCondAssign_or_chain_iff_c6 _ _).mpr
    (OrReach.orRight _ _ (OrReach.assignTop _ _ _))

/-- C7.  `visit_cond_expr` checks a ternary's test operand only when that
test is syntactically a parenthesized expression, and then runs the
condition check on the expression inside the parentheses; a ternary whose
test is not parenthesized is never checked, whatever the test contains. -/
theorem noCondAssign_ternary_paren_only_c7 :
    (∀ inner psp c a sp,
        visitCondExpr (CExpr.paren inner psp) c a sp = checkCondition inner) ∧
    (∀ t c a sp, t.isParen = false → visitCondExpr t c a sp = []) := by
  constructor
  · intro inner psp c a sp
    rfl
  · intro t c a sp h
    match t with
    | .assign l r sp' => rfl
    | .bin op l r sp' => rfl
    | .paren inner sp' => simp [CExpr.isParen] at h
    | .condE x y z sp' => rfl
    | .otherE sp' => rfl

/-- Witness for C7: a ternary whose test is directly the assignment
`x = 0` (not parenthesized) is not checked. -/
theorem noCondAssign_ternary_paren_only_c7_witness :
    visitCondExpr
        (CExpr.assign (CExpr.otherE ⟨0, 1⟩) (CExpr.otherE ⟨4, 5⟩) ⟨0, 5⟩)
        (CExpr.otherE ⟨8, 9⟩) (CExpr.otherE ⟨12, 13⟩) ⟨0, 13⟩ = [] :=
  noCondAssign_ternary_paren_only_c7.2
    (CExpr.assign (CExpr.otherE ⟨0, 1⟩) (CExpr.otherE ⟨4, 5⟩) ⟨0, 5⟩)
    (CExpr.otherE ⟨8, 9⟩) (CExpr.otherE ⟨12, 13⟩) ⟨0, 13⟩ rfl

end DenoLint.NoCondAssign

namespace DenoLint.NoFallthrough

theorem leadDiags_eq (ctx : FCtx) (c : SwitchCase) (p : Span) (se : Bool) :
    (if se then
       match ctx.leading c.span.lo with
       | some comments => if allowFallThrough comments then [] else [p]
       | none => [p]
     else []) = if se && !leadingSuppressed ctx c then [p] else [] := by
  cases se
  · simp
  · simp only [if_pos rfl, Bool.true_and, leadingSuppressed]
    cases ctx.leading c.span.lo with
    | none => simp
    | some comments => cases h : allowFallThrough comments <;> simp [h]

theorem scanCons_eq (ctx : FCtx) :
    ∀ (cons : List FStmt) (stopsExec shouldEmit : Bool), cons ≠ [] →
      scanCons ctx cons stopsExec shouldEmit =
        if trailingSuppressed ctx cons then ScanResult.commentSuppressed
        else ScanResult.normal
          (if stopsExec || !scanVerdict ctx cons then false else shouldEmit)
  | [], _, _, h => absurd rfl h
  | [st], stopsExec, shouldEmit, _ => by
    simp only [scanCons, trailingSuppressed, scanVerdict, List.getLast?_singleton,
      List.any_cons, List.any_nil, Bool.or_false, Bool.not_not]
    cases htr : ctx.trailing st.span.hi with
    | none => simp
    | some comments => cases hall : allowFallThrough comments <;> simp [hall]
  | st :: st2 :: rest, stopsExec, shouldEmit, _ => by
    have ih := scanCons_eq ctx (st2 :: rest)
      (stopsExec || ((ctx.meta st.span.lo).map Meta.stopsExecution).getD false)
      (if stopsExec || ((ctx.meta st.span.lo).map Meta.stopsExecution).getD false
        then false else shouldEmit)
      (by simp)
    simp only [scanCons] at ih ⊢
    rw [ih]
    have htr : trailingSuppressed ctx (st :: st2 :: rest) =
        trailingSuppressed ctx (st2 :: rest) := by
      simp [trailingSuppressed, List.getLast?_cons_cons]
    rw [← htr]
    cases htrv : trailingSuppressed ctx (st :: st2 :: rest) with
    | true => simp
    | false =>
      simp only [Bool.false_eq_true, if_false]
      congr 1
      simp only [scanVerdict, List.any_cons, Bool.not_or]
      cases stopsExec <;>
        cases hst : ((ctx.meta st.span.lo).map Meta.stopsExecution).getD false <;>
        cases hrest : (st2 :: rest).any
          (fun stmt => ((ctx.meta stmt.span.lo).map Meta.stopsExecution).getD false) <;>
        simp [hst, hrest, scanVerdict]

end DenoLint.NoFallthrough

namespace DenoLint.NoFallthrough

theorem visitCasesLoop_single (ctx : FCtx) (c : SwitchCase) (se : Bool) (p : Span) :
    visitCasesLoop ctx [c] se p =
      if se && !leadingSuppressed ctx c then [p] else [] := by
  simp only [visitCasesLoop]
  cases hsc : scanCons ctx c.cons false true with
  | commentSuppressed =>
    simp only [visitCasesLoop, List.append_nil]
    exact leadDiags_eq ctx c p se
  | normal se2 =>
    simp only [visitCasesLoop, List.append_nil]
    exact leadDiags_eq ctx c p se

theorem visitSwitchCases_two (ctx : FCtx) (c next : SwitchCase) :
    visitSwitchCases ctx [c, next] =
      if !trailingSuppressed ctx c.cons && caseVerdict ctx c next
          && !leadingSuppressed ctx next then [c.span] else [] := by
  rcases hcons : c.cons with _ | ⟨st, stRest⟩
  · have hse : (if next.test.isNone then
          (if caseEmpty ([] : List FStmt) then true else true)
        else (if caseEmpty ([] : List FStmt) then false else true))
        = caseVerdict ctx c next := by
      simp [caseVerdict, caseEmpty, hcons, scanVerdict]
    have htrail : trailingSuppressed ctx ([] : List FStmt) = false := rfl
    simp only [visitSwitchCases, visitCasesLoop, hcons, scanCons]
    cases scanCons ctx next.cons false true <;>
    · simp only [Bool.false_eq_true, if_false, List.nil_append, List.append_nil]
      rw [leadDiags_eq, hse, htrail]
      simp
  · simp only [visitSwitchCases, visitCasesLoop]
    rw [scanCons_eq ctx c.cons false true (by simp [hcons])]
    cases htr : trailingSuppressed ctx c.cons with
    | true =>
      simp only [if_pos rfl]
      cases scanCons ctx next.cons false true <;> simp [← hcons, htr]
    | false =>
      simp only [Bool.false_eq_true, if_false]
      have hval : (if (false || !scanVerdict ctx c.cons) then false else true) =
          scanVerdict ctx c.cons := by
        cases scanVerdict ctx c.cons <;> simp
      rw [hval]
      have hadj : (if next.test.isNone then
            (if caseEmpty c.cons then true else scanVerdict ctx c.cons)
          else (if caseEmpty c.cons then false else scanVerdict ctx c.cons))
          = caseVerdict ctx c next := rfl
      cases scanCons ctx next.cons false true <;>
      · simp only [Bool.false_eq_true, if_false, List.nil_append, List.append_nil]
        rw [leadDiags_eq, hadj]
        simp [← hcons, htr]

end DenoLint.NoFallthrough

namespace DenoLint.NoFallthrough

/-- Claim C8: for a switch case with a pending fallthrough verdict from the
previous case, the "Fallthrough is not allowed" diagnostic is reported at
the previous case's span, and it is suppressed exactly when a suppression
comment is attached as a leading comment at this case's span start or as a
trailing comment at the end of the previous case's last statement; either
attachment point alone suffices, and the trailing comment overrides the
computed reachability verdict.  A comment suppresses exactly when its
ASCII-lowercased text contains "fallthrough", "falls through" or
"fall through". -/
theorem noFallthrough_suppression_c8 :
    (∀ (ctx : FCtx) (c next : SwitchCase),
        visitSwitchCases ctx [c, next] =
          if !trailingSuppressed ctx c.cons && caseVerdict ctx c next
              && !leadingSuppressed ctx next then [c.span] else []) ∧
    (∀ comments : List Comment,
        allowFallThrough comments = true ↔
          ∃ comment ∈ comments,
            (strHasSub (asciiLower comment.text) "fallthrough" = true ∨
             strHasSub (asciiLower comment.text) "falls through" = true ∨
             strHasSub (asciiLower comment.text) "fall through" = true)) := by
  refine ⟨visitSwitchCases_two, ?_⟩
  intro comments
  induction comments with
  | nil => simp [allowFallThrough]
  | cons cm rest ih =>
    simp only [allowFallThrough]
    rcases h1 : strHasSub (asciiLower cm.text) "fallthrough" with _ | _ <;>
      rcases h2 : strHasSub (asciiLower cm.text) "falls through" with _ | _ <;>
      rcases h3 : strHasSub (asciiLower cm.text) "fall through" with _ | _ <;>
      simp [h1, h2, h3, ih]

/-- Witness for C8: a switch of two non-default cases whose statements the
oracle does not cover, with no comments anywhere, reports at the first
case's span. -/
theorem noFallthrough_suppression_c8_witness :
    visitSwitchCases missCtx
        [⟨some (), [FStmt.other ⟨1, 2⟩], ⟨0, 3⟩⟩,
         ⟨some (), [FStmt.other ⟨5, 6⟩], ⟨4, 7⟩⟩] = [⟨0, 3⟩] := by
  rw [noFallthrough_suppression_c8.1]; rfl

/-- Counterexample to C9: a case whose body is an empty block *followed by
another statement* is not empty under the claim's definition ("no
statements, or a single empty block"), yet the next case's identity still
changes the verdict: before a default case it is flagged, before a
non-default case it is not — the code's emptiness test looks only at the
first statement. -/
theorem noFallthrough_firstStmt_empty_counterexample_c9 :
    visitSwitchCases missCtx [blockThenStmtCase, defaultCase] = [⟨0, 5⟩] ∧
    visitSwitchCases missCtx [blockThenStmtCase, nonDefaultCase] = [] ∧
    specEmptyBody blockThenStmtCase.cons = false :=
  ⟨rfl, rfl, rfl⟩

/-- Claim C9 (amended): with "empty" meaning no statements or a *first*
statement that is an empty block, an empty case immediately followed by the
default case is flagged at the empty case's span (absent suppression
comments), an empty case followed by a non-default case is not, and the
next case's identity changes the verdict only for such code-empty cases. -/
theorem noFallthrough_empty_case_c9 :
    (∀ (ctx : FCtx) (c next : SwitchCase),
        caseEmpty c.cons = true →
        trailingSuppressed ctx c.cons = false →
        leadingSuppressed ctx next = false →
        visitSwitchCases ctx [c, next] =
          if next.test.isNone then [c.span] else []) ∧
    (∀ (ctx : FCtx) (c n1 n2 : SwitchCase),
        caseEmpty c.cons = false →
        caseVerdict ctx c n1 = caseVerdict ctx c n2) := by
  constructor
  · intro ctx c next hemp htr hld
    rw [visitSwitchCases_two, htr]
    have hcv : caseVerdict ctx c next = if next.test.isNone then true else false := by
      simp [caseVerdict, hemp]
    rw [hcv, hld]
    cases next.test.isNone <;> simp
  · intro ctx c n1 n2 h
    simp [caseVerdict, h]

/-- Witness for C9: an empty case directly before `default` is flagged at
the empty case's span. -/
theorem noFallthrough_empty_case_c9_witness :
    visitSwitchCases missCtx [⟨some (), [], ⟨0, 3⟩⟩, defaultCase] = [⟨0, 3⟩] := by
  have h := noFallthrough_empty_case_c9.1 missCtx ⟨some (), [], ⟨0, 3⟩⟩ defaultCase
    rfl rfl rfl
  simpa [defaultCase] using h

/-- An oracle and comment lookup that miss everywhere scan identically to
one that answers "does not stop execution" and "no comments" everywhere. -/
theorem scanCons_missCtx_eq (cons : List FStmt) :
    ∀ stopsExec shouldEmit, scanCons missCtx cons stopsExec shouldEmit =
      scanCons noInfoCtx cons stopsExec shouldEmit := by
  induction cons with
  | nil => intro _ _; rfl
  | cons st rest ih =>
    intro stopsExec shouldEmit
    cases rest with
    | nil => simp [scanCons, missCtx, noInfoCtx, allowFallThrough]
    | cons st2 rest2 =>
      simp only [scanCons, missCtx, noInfoCtx]
      exact ih _ _

/-- The case loop treats lookup misses as "no information available". -/
theorem visitCasesLoop_missCtx_eq (cases : List SwitchCase) :
    ∀ se p, visitCasesLoop missCtx cases se p = visitCasesLoop noInfoCtx cases se p := by
  induction cases with
  | nil => intro _ _; rfl
  | cons c rest ih =>
    intro se p
    have mcl : ∀ x, missCtx.leading x = none := fun _ => rfl
    have ncl : ∀ x, noInfoCtx.leading x = some [] := fun _ => rfl
    simp only [visitCasesLoop, mcl, ncl, allowFallThrough]
    rw [← scanCons_missCtx_eq]
    cases scanCons missCtx c.cons false true <;> simp [ih]

end DenoLint.NoFallthrough

namespace DenoLint

/-- Claim C2 (amended): `no-fallthrough` treats a miss in the reachability
oracle or in a comment lookup as "no information available" — running over
lookups that miss everywhere is the same as running over lookups answering
false/empty everywhere; but `getter-return`'s end-of-body reachability
query `.unwrap()`s the oracle entry and panics (modelled as `none`) on a
miss whenever a getter frame is active, and only skips the query when no
frame is active. -/
theorem lookup_miss_handling_c2 :
    (∀ (cases : List NoFallthrough.SwitchCase),
        NoFallthrough.visitSwitchCases NoFallthrough.missCtx cases =
          NoFallthrough.visitSwitchCases NoFallthrough.noInfoCtx cases) ∧
    (∀ (s : GetterReturn.GState) (bodySpan getterSpan : Span) (n : String),
        s.getterName = some n →
        GetterReturn.checkGetter (fun _ => none) s bodySpan getterSpan = none) ∧
    (∀ (s : GetterReturn.GState) (bodySpan getterSpan : Span),
        s.getterName = none →
        GetterReturn.checkGetter (fun _ => none) s bodySpan getterSpan = some s) := by
  refine ⟨?_, ?_, ?_⟩
  · intro cases
    simpa [NoFallthrough.visitSwitchCases] using
      NoFallthrough.visitCasesLoop_missCtx_eq cases false dummySpan
  · intro s bodySpan getterSpan n h
    simp [GetterReturn.checkGetter, h]
  · intro s bodySpan getterSpan h
    simp [GetterReturn.checkGetter, h]

/-- Counterexample to C2: with an active getter frame, the end-of-body
reachability query on an oracle that does not cover the position panics
(`check_getter`'s `.unwrap()`, modelled as `none`) instead of treating the
miss as "no information". -/
theorem getterReturn_oracle_miss_counterexample_c2 :
    GetterReturn.checkGetter (fun _ => none)
        ⟨[], some "g", false⟩ ⟨0, 1⟩ ⟨2, 3⟩ = none := rfl

/-- Witness for C2: a concrete one-case switch under the two contexts, and
a concrete panicking getter query. -/
theorem lookup_miss_handling_c2_witness :
    NoFallthrough.visitSwitchCases NoFallthrough.missCtx
        [⟨some (), [], ⟨0, 3⟩⟩] =
      NoFallthrough.visitSwitchCases NoFallthrough.noInfoCtx
        [⟨some (), [], ⟨0, 3⟩⟩] ∧
    GetterReturn.checkGetter (fun _ => none)
        ⟨[], some "x", true⟩ ⟨5, 6⟩ ⟨7, 8⟩ = none :=
  ⟨lookup_miss_handling_c2.1 _, lookup_miss_handling_c2.2.1 _ _ _ "x" rfl⟩

end DenoLint


namespace DenoLint.GetterReturn

/-- `visit_getter` restores both saved fields exactly whenever `op`
completes normally, whatever `op` did. -/
theorem visitGetter_restores (op : GState → Option GState) (s s' : GState)
    (h : visitGetter op s = some s') :
    s'.getterName = s.getterName ∧ s'.hasReturn = s.hasReturn := by
  simp only [visitGetter] at h
  cases hop : op { s with getterName := none } with
  | none => rw [hop] at h; exact absurd h (by simp)
  | some s2 =>
    rw [hop] at h
    have := Option.some.inj h
    subst this
    exact ⟨rfl, rfl⟩

/-- `visit_class_method` is — definitionally — `visit_getter` applied to
the method's op, for public and private methods alike. -/
theorem visitClassMember_eq_visitGetter (oracle : Oracle) (kind : MethodKind)
    (key : PropName) (body : OptBlock) (sp : Span) (s : GState) :
    visitClassMember oracle (.methodM kind key body sp) s =
      visitGetter (visitMethodOp oracle kind key body sp) s := rfl

/-- `visit_private_method` is — definitionally — `visit_getter` applied to
the private method's op. -/
theorem visitPrivateMember_eq_visitGetter (oracle : Oracle) (kind : MethodKind)
    (key : String) (body : OptBlock) (sp : Span) (s : GState) :
    visitClassMember oracle (.privateM kind key body sp) s =
      visitGetter (visitPrivateOp oracle kind key body sp) s := rfl

/-- `visit_getter_prop` is — definitionally — `visit_getter` applied to the
getter property's op. -/
theorem visitPropItem_getterP_eq_visitGetter (oracle : Oracle) (key : PropName)
    (body : OptBlock) (sp : Span) (s : GState) :
    visitPropItem oracle (.getterP key body sp) s =
      visitGetter (visitGetterPropOp oracle key body sp) s := rfl

/-- Counterexample to C1: in an outer object-literal getter whose body is
`return v;` followed by an object literal carrying a non-returning inner
getter, the inner getter is reported with the "always return" message,
which `check_getter` chooses only when `has_return` is true — so the inner
getter's check read the enclosing frame's `has_return` flag
(`visit_getter` saves and restores the flag but does not reset it). -/
theorem getterReturn_inherited_flag_counterexample_c1 :
    lintModule oracleRetFirst progRetFirst =
      some [(⟨20, 33⟩, alwaysExpectedMsg "inner")] ∧
    alwaysExpectedMsg "inner" ≠ expectedMsg "inner" :=
  ⟨by decide, by decide⟩

/-- Claim C1 (amended): entering a recognized getter saves the active
frame and leaving restores name and `has_return` exactly, whatever happened
inside; a non-returning inner getter nested inside a returning outer getter
is reported only at the inner getter's span; but the inner getter's check
*inherits* the enclosing frame's `has_return` value at entry (the flag is
saved and restored, not reset), so the inner diagnostic's message variant
can reflect the outer getter's returns. -/
theorem getterReturn_frame_discipline_c1 :
    (∀ (op : GState → Option GState) (s s' : GState),
        visitGetter op s = some s' →
        s'.getterName = s.getterName ∧ s'.hasReturn = s.hasReturn) ∧
    (∀ (oracle : Oracle) (cm : ClassMember) (s s' : GState),
        visitClassMember oracle cm s = some s' →
        s'.getterName = s.getterName ∧ s'.hasReturn = s.hasReturn) ∧
    (∀ (oracle : Oracle) (key : PropName) (body : OptBlock) (sp : Span)
        (s s' : GState),
        visitPropItem oracle (.getterP key body sp) s = some s' →
        s'.getterName = s.getterName ∧ s'.hasReturn = s.hasReturn) ∧
    lintModule oracleNested progNested =
      some [(⟨20, 33⟩, expectedMsg "inner")] := by
  refine ⟨visitGetter_restores, ?_, ?_, by decide⟩
  · intro oracle cm s s' h
    cases cm with
    | methodM kind key body sp =>
      rw [visitClassMember_eq_visitGetter] at h
      exact visitGetter_restores _ _ _ h
    | privateM kind key body sp =>
      rw [visitPrivateMember_eq_visitGetter] at h
      exact visitGetter_restores _ _ _ h
    | otherM sp =>
      have e : visitClassMember oracle (.otherM sp) s = some s := rfl
      rw [e] at h
      have := Option.some.inj h
      subst this
      exact ⟨rfl, rfl⟩
  · intro oracle key body sp s s' h
    rw [visitPropItem_getterP_eq_visitGetter] at h
    exact visitGetter_restores _ _ _ h

/-- Witness for C1: a concrete getter class method visit restores the
previously active frame. -/
theorem getterReturn_frame_discipline_c1_witness :
    ((⟨[], some "outer", true⟩ : GState).getterName =
        (⟨[], some "outer", true⟩ : GState).getterName ∧
      (⟨[], some "outer", true⟩ : GState).hasReturn =
        (⟨[], some "outer", true⟩ : GState).hasReturn) :=
  getterReturn_frame_discipline_c1.2.1 (fun _ => none)
    (ClassMember.methodM MethodKind.getter (PropName.ident "g") .noneB ⟨0, 3⟩)
    ⟨[], some "outer", true⟩ ⟨[], some "outer", true⟩ (by decide)

/-- Counterexample to C3: in an outer getter whose body declares a class
with a non-getter method `m` containing `return x;`, the value-carrying
return inside the nested non-getter class method does not set the outer
frame's `has_return` — the outer getter is reported with the "expected to
return a value" message, not the "always" variant — because
`visit_class_method` wraps every method, getter or not, in the
frame-clearing `visit_getter`. -/
theorem getterReturn_method_return_counterexample_c3 :
    lintModule oracleMethodNested progMethodNested =
      some [(⟨5, 28⟩, expectedMsg "outer")] ∧
    expectedMsg "outer" ≠ alwaysExpectedMsg "outer" :=
  ⟨by decide, by decide⟩

/-- Claim C3 (amended): while a getter frame is active, a `return` with a
value sets `has_return`, and entering a nested plain function expression
does not end or suspend the frame (so such returns are credited to the
getter, as the concrete module shows); but nested class methods and private
methods of *any* kind run under the frame save/clear/restore wrapper
`visit_getter`, with the getter name set only for getter kind — so a return
inside a nested non-getter class method does not set the enclosing frame's
flag, and the frame is restored after any class member. -/
theorem getterReturn_nested_functions_c3 :
    (∀ (oracle : Oracle) (n : String) (e : Expr) (sp : Span) (s : GState),
        s.getterName = some n →
        visitStmt oracle (.ret (.someE e) sp) s = some { s with hasReturn := true }) ∧
    (∀ (oracle : Oracle) (body : OptBlock) (sp : Span) (s : GState),
        visitExpr oracle (.fnE body sp) s = visitOptBlock oracle body s) ∧
    (∀ (oracle : Oracle) (kind : MethodKind) (key : PropName) (body : OptBlock)
        (sp : Span) (s : GState),
        visitClassMember oracle (.methodM kind key body sp) s =
          visitGetter (visitMethodOp oracle kind key body sp) s) ∧
    (∀ (oracle : Oracle) (kind : MethodKind) (key : PropName) (body : OptBlock)
        (sp : Span) (a : GState), kind ≠ MethodKind.getter →
        visitMethodOp oracle kind key body sp a =
          match visitOptBlock oracle body a with
          | none => none
          | some a2 =>
            match body with
            | .someB b => checkGetter oracle a2 b.span sp
            | .noneB => some a2) ∧
    lintModule oracleFnNested progFnNested =
      some [(⟨5, 28⟩, alwaysExpectedMsg "outer")] := by
  refine ⟨?_, ?_, visitClassMember_eq_visitGetter, ?_, by decide⟩
  · intro oracle n e sp s h
    obtain ⟨errs, gn, hr⟩ := s
    simp only at h
    subst h
    rfl
  · intro oracle body sp s
    rfl
  · intro oracle kind key body sp a h
    simp [visitMethodOp, h]

/-- Witness for C3: a value-carrying return under an active frame sets
`has_return`. -/
theorem getterReturn_nested_functions_c3_witness :
    visitStmt (fun _ => none)
        (.ret (.someE (Expr.ident "x" ⟨1, 2⟩)) ⟨0, 3⟩) ⟨[], some "g", false⟩ =
      some ⟨[], some "g", true⟩ :=
  getterReturn_nested_functions_c3.1 (fun _ => none) "g"
    (Expr.ident "x" ⟨1, 2⟩) ⟨0, 3⟩ ⟨[], some "g", false⟩ rfl

/-- Counterexample to C4: in a class getter `outer` whose body is
`return v;` followed by an object literal with a non-returning getter
`inner`, no return statement is ever seen while the inner getter's frame is
active, yet the inner diagnostic is the "always return a value" variant:
the variant is chosen by the visitor's `has_return` flag, which was
inherited from the enclosing frame. -/
theorem getterReturn_variant_counterexample_c4 :
    lintModule oracleClassRetFirst progClassRetFirst =
      some [(⟨45, 53⟩, alwaysExpectedMsg "inner")] ∧
    alwaysExpectedMsg "inner" ≠ expectedMsg "inner" :=
  ⟨by decide, by decide⟩

/-- Claim C4 (amended): with an active getter name and an oracle entry at
the body span's start, `check_getter` inserts a diagnostic at the getter's
span exactly when the oracle reports control can still fall off the end of
the body — the "expected to return a value in" variant when the visitor's
`has_return` flag is false and the "always return a value" variant when it
is true (the flag counts returns seen while a frame was active and is
inherited, not reset, when a nested frame begins) — and leaves the state
unchanged when the oracle reports that point unreachable. -/
theorem getterReturn_end_of_body_check_c4 :
    ∀ (oracle : Oracle) (s : GState) (n : String) (bodySpan getterSpan : Span)
      (m : Meta),
      s.getterName = some n → oracle bodySpan.lo = some m →
      checkGetter oracle s bodySpan getterSpan =
        some (if m.continuesExecution then
               { s with errors := (insertError s.errors getterSpan
                   (if s.hasReturn then alwaysExpectedMsg n else expectedMsg n)) }
             else s) := by
  intro oracle s n bodySpan getterSpan m h1 h2
  simp only [checkGetter, h1, h2]
  cases hm : m.continuesExecution <;> cases hr : s.hasReturn <;>
    simp [reportExpected, reportAlwaysExpected, h1, hm, hr]

/-- Witness for C4: a return-free getter whose body end is reachable gets
the "expected to return a value" diagnostic at the getter's span. -/
theorem getterReturn_end_of_body_check_c4_witness :
    checkGetter (fun _ => some ⟨true, false⟩) ⟨[], some "g", false⟩ ⟨0, 1⟩ ⟨2, 3⟩ =
      some ⟨[(⟨2, 3⟩, expectedMsg "g")], some "g", false⟩ := by
  have h := getterReturn_end_of_body_check_c4 (fun _ => some ⟨true, false⟩)
    ⟨[], some "g", false⟩ "g" ⟨0, 1⟩ ⟨2, 3⟩ ⟨true, false⟩ rfl rfl
  simpa [insertError] using h

/-- Counterexample to C5: a three-argument call whose callee is the bare
identifier `foo` — not the two-name member access `Object.defineProperty` —
and whose third argument is an object literal with a `get` arrow (block
body) entry *is* analyzed under shape (d) and its `get` entry is reported:
the callee screen only rejects member expressions with an offending
identifier object or property, and lets every other callee shape
through. -/
theorem getterReturn_callee_counterexample_c5 :
    specDefinePropertyCallee (ExprOrSuper.expr (Expr.ident "foo" ⟨0, 3⟩)) = false ∧
    lintModule oracleIdentCallee progIdentCallee =
      some [(⟨40, 54⟩, expectedMsg "get")] :=
  ⟨rfl, by decide⟩

/-- Claim C5 (amended): the shape-(d) analysis runs only when the call has
exactly three arguments; a callee that is a member expression whose object
is an identifier other than `Object` or whose property is an identifier
other than `defineProperty` is rejected, while `Object.defineProperty`
itself and every non-member callee shape (bare identifiers, parenthesized
expressions, `super`) pass the screen, after which an object-literal third
argument is analyzed; a `get` entry whose value is an arrow function with
an expression body is exempt. -/
theorem getterReturn_defineProperty_screen_c5 :
    (∀ (oracle : Oracle) (callee : ExprOrSuper) (args : ExprList) (s : GState),
        args.length ≠ 3 → visitCallSpecial oracle callee args s = some s) ∧
    (∀ (oracle : Oracle) (callee : ExprOrSuper) (args : ExprList) (s : GState),
        calleeRejects callee = true → visitCallSpecial oracle callee args s = some s) ∧
    (∀ (oracle : Oracle) (callee : ExprOrSuper) (arg1 arg2 : Expr)
        (props : PropList) (osp : Span) (s : GState),
        calleeRejects callee = false →
        visitCallSpecial oracle callee
            (.consE arg1 (.consE arg2 (.consE (Expr.obj props osp) .nilE))) s =
          visitDefinePropsLoop oracle props s) ∧
    (∀ callee, specDefinePropertyCallee callee = true → calleeRejects callee = false) ∧
    (∀ (sym : String) (sp : Span),
        calleeRejects (ExprOrSuper.expr (Expr.ident sym sp)) = false) ∧
    (∀ (oracle : Oracle) (e : Expr) (asp sp : Span) (rest : PropList)
        (s : GState),
        visitDefinePropsLoop oracle
            (.consP (.keyValue (.ident "get") (Expr.arrow (.expr e) asp) sp) rest) s =
          visitDefinePropsLoop oracle rest s) := by
  refine ⟨?_, ?_, ?_, ?_, ?_, ?_⟩
  · intro oracle callee args s h
    unfold visitCallSpecial
    simp [h]
  · intro oracle callee args s h
    unfold visitCallSpecial
    simp [h]
  · intro oracle callee arg1 arg2 props osp s h
    unfold visitCallSpecial
    simp [h, ExprList.length]
  · intro callee h
    unfold specDefinePropertyCallee at h
    split at h
    · rename_i o osp2 p psp2 msp
      simp only [Bool.and_eq_true, decide_eq_true_eq] at h
      obtain ⟨rfl, rfl⟩ := h
      simp [calleeRejects]
    · exact absurd h (by simp)
  · intro sym sp
    rfl
  · intro oracle e asp sp rest s
    rfl

/-- Witness for C5: a three-argument call with a parenthesized callee
passes the screen and its object third argument is analyzed. -/
theorem getterReturn_defineProperty_screen_c5_witness :
    visitCallSpecial (fun _ => none)
        (ExprOrSuper.expr (Expr.paren (Expr.ident "x" ⟨0, 1⟩) ⟨0, 2⟩))
        (.consE (Expr.ident "a" ⟨3, 4⟩)
          (.consE (Expr.ident "b" ⟨5, 6⟩)
            (.consE (Expr.obj .nilP ⟨7, 8⟩) .nilE)))
        initState =
      visitDefinePropsLoop (fun _ => none) .nilP initState :=
  getterReturn_defineProperty_screen_c5.2.2.1 (fun _ => none)
    (ExprOrSuper.expr (Expr.paren (Expr.ident "x" ⟨0, 1⟩) ⟨0, 2⟩))
    (Expr.ident "a" ⟨3, 4⟩) (Expr.ident "b" ⟨5, 6⟩) .nilP ⟨7, 8⟩ initState rfl

end DenoLint.GetterReturn
